import Mathlib

/-!
Shallow embedding of the opencensus-cpp stats core:
`opencensus/stats/internal/view_data_impl.cc` (view data engine) and
`opencensus/stats/internal/measure_registry_impl.h` (measure registry).

Times are modelled as `Int` ticks (absl::Time / absl::Duration), recorded
values as `Rat` (exact stand-in for finite doubles).  The C++ hash maps keyed
by tag-value vectors are modelled as association lists; only lookup and
insert-or-update are used by the source, and nothing is ever erased.

Parts of the repository referenced by the two source files but not part of
them (the `IntervalStatsObject` ring, the `Distribution` accumulator, the
`BucketBoundaries` classifier, the `end_time_` member initializer in
`view_data_impl.h`, and the body of `MeasureRegistryImpl::RegisterImpl`) are
modelled from the specification; each such definition carries a doc comment
saying so.
-/

namespace OCStats

/-- Tag-value key of a view row: an ordered sequence of strings. -/
abbrev TagKey := List String

/-- `DataMap<T>`: the per-view tag-keyed map, as an association list. -/
abbrev DataMap (α : Type) : Type := List (TagKey × α)

/-- Map lookup (`find` / presence test in the C++ maps). -/
def DataMap.lookup {α : Type} : DataMap α → TagKey → Option α
  | [], _ => none
  | (k', v) :: rest, k => if k' = k then some v else DataMap.lookup rest k

/-- Insert-or-update at key `k`: the value becomes `f (old value)` where the
old value is `none` for an absent key (models `operator[]` /
`emplace`-then-mutate in the source; keys are never removed). -/
def DataMap.upsert {α : Type} : DataMap α → TagKey → (Option α → α) → DataMap α
  | [], k, f => [(k, f none)]
  | (k', v) :: rest, k, f =>
      if k' = k then (k', f (some v)) :: rest
      else (k', v) :: DataMap.upsert rest k f

/-- Map a function over all values, keeping keys (the per-row loop of the
interval→export constructor). -/
def DataMap.mapVals {α β : Type} (g : α → β) (m : DataMap α) : DataMap β :=
  m.map (fun r => (r.1, g r.2))

/-- Modelled from the spec: `BucketBoundaries` is a black box holding the
ordered bucket boundaries; `bucket_for_value` classifies a value. -/
structure BucketBoundaries where
  boundaries : List Rat
deriving DecidableEq

/-- `num_buckets()`: one more bucket than there are boundaries. -/
def BucketBoundaries.numBuckets (bb : BucketBoundaries) : Nat :=
  bb.boundaries.length + 1

/-- Modelled from the spec: `bucket_for_value(v)` is the index of the bucket
containing `v`, i.e. the number of boundaries `≤ v`. -/
def BucketBoundaries.bucketForValue (bb : BucketBoundaries) (v : Rat) : Nat :=
  (bb.boundaries.filter (fun b => decide (b ≤ v))).length

/-- `Aggregation`: Sum, Count, or Distribution with bucket boundaries. -/
inductive Aggregation where
  | sum
  | count
  | distribution (bb : BucketBoundaries)
deriving DecidableEq

/-- `Aggregation::bucket_boundaries()`: the stored boundaries (default-empty
for non-Distribution aggregations, matching the C++ member accessor). -/
def Aggregation.bucketBoundaries : Aggregation → BucketBoundaries
  | .distribution bb => bb
  | _ => ⟨[]⟩

/-- `AggregationWindow`: Cumulative, or Interval with a duration. -/
inductive AggregationWindow where
  | cumulative
  | interval (duration : Int)
deriving DecidableEq

/-- `AggregationWindow::duration()`: the stored duration (zero for
Cumulative, matching the default-constructed C++ member). -/
def AggregationWindow.durationOf : AggregationWindow → Int
  | .cumulative => 0
  | .interval d => d

/-- The slice of `ViewDescriptor` the engine reads: aggregation and window. -/
structure ViewDescriptor where
  aggregation : Aggregation
  aggregation_window : AggregationWindow
deriving DecidableEq

/-- `ViewDataImpl::Type`: the storage-type discriminator. -/
inductive VType where
  | kDouble
  | kInt64
  | kDistribution
  | kStatsObject
deriving DecidableEq

/-- `TypeForDescriptor` (view_data_impl.cc): storage type from descriptor. -/
def typeForDescriptor (descriptor : ViewDescriptor) : VType :=
  match descriptor.aggregation_window with
  | .cumulative =>
      match descriptor.aggregation with
      | .sum => .kDouble
      | .count => .kInt64
      | .distribution _ => .kDistribution
  | .interval _ => .kStatsObject

/-- Extended rational for the distribution min/max, which start at `+∞` and
`-∞` respectively. -/
inductive XRat where
  | negInf
  | fin (q : Rat)
  | posInf
deriving DecidableEq

/-- `min` of the running minimum with a new finite value. -/
def XRat.minWith : XRat → Rat → XRat
  | .negInf, _ => .negInf
  | .posInf, v => .fin v
  | .fin q, v => .fin (min q v)

/-- `max` of the running maximum with a new finite value. -/
def XRat.maxWith : XRat → Rat → XRat
  | .posInf, _ => .posInf
  | .negInf, v => .fin v
  | .fin q, v => .fin (max q v)

/-- Modelled from the spec: the `Distribution` accumulator's observable
fields (count, mean, sum-of-squared-deviation, min, max, bucket counts). -/
structure Distribution where
  count : Nat
  mean : Rat
  sum_of_squared_deviation : Rat
  min : XRat
  max : XRat
  bucket_counts : List Nat
deriving DecidableEq

/-- Modelled from the spec: `Distribution(bucket_boundaries)` starts empty:
count 0, mean 0, ssd 0, `min = +∞`, `max = -∞`, all bucket counts zero. -/
def Distribution.empty (bb : BucketBoundaries) : Distribution :=
  { count := 0, mean := 0, sum_of_squared_deviation := 0,
    min := .posInf, max := .negInf,
    bucket_counts := List.replicate bb.numBuckets 0 }

/-- Increment the `i`-th entry of a list of counters. -/
def incNth : List Nat → Nat → List Nat
  | [], _ => []
  | x :: rest, 0 => (x + 1) :: rest
  | x :: rest, n + 1 => x :: incNth rest n

/-- Modelled from the spec: one `Distribution::Add` step with an already
classified bucket index (Welford update of mean and squared deviation;
exact in `Rat`). -/
def Distribution.addWithBucket (d : Distribution) (value : Rat)
    (bucketIndex : Nat) : Distribution :=
  let newCount := d.count + 1
  let oldMean := d.mean
  let newMean := oldMean + (value - oldMean) / (newCount : Rat)
  { count := newCount, mean := newMean,
    sum_of_squared_deviation :=
      d.sum_of_squared_deviation + (value - oldMean) * (value - newMean),
    min := d.min.minWith value, max := d.max.maxWith value,
    bucket_counts := incNth d.bucket_counts bucketIndex }

/-- Modelled from the spec: `Distribution::Add(value)` classifies the value
itself. -/
def Distribution.addValue (bb : BucketBoundaries) (d : Distribution)
    (value : Rat) : Distribution :=
  d.addWithBucket value (bb.bucketForValue value)

/-- One recorded event inside an `IntervalStatsObject`: the amount added,
the (pre-classified) histogram bucket, and the timestamp. -/
structure IntervalEvent where
  value : Rat
  bucket : Nat
  time : Int
deriving DecidableEq

/-- Modelled from the spec: `IntervalStatsObject` — a ring of `slots`
sub-buckets spanning `duration`, anchored at creation time.  The ring is
modelled as the log of recorded events; the windowed reads (`SumInto`,
`DistributionInto`) aggregate the events of the last `duration`. -/
structure IntervalStatsObject where
  slots : Nat
  duration : Int
  anchor : Int
  events : List IntervalEvent
deriving DecidableEq

/-- The `IntervalStatsObject(n, duration, now)` constructor. -/
def IntervalStatsObject.make (n : Nat) (dur : Int) (now : Int) :
    IntervalStatsObject :=
  { slots := n, duration := dur, anchor := now, events := [] }

/-- `AddToDistribution(value, bucket_index, now)`: record one event. -/
def IntervalStatsObject.addToDistribution (o : IntervalStatsObject)
    (value : Rat) (bucketIndex : Nat) (now : Int) : IntervalStatsObject :=
  { o with events := o.events ++ [⟨value, bucketIndex, now⟩] }

/-- `MutableCurrentBucket(now)[0] += amount`: record one slot-0 event. -/
def IntervalStatsObject.addToSlot0 (o : IntervalStatsObject)
    (amount : Rat) (now : Int) : IntervalStatsObject :=
  { o with events := o.events ++ [⟨amount, 0, now⟩] }

/-- Modelled from the spec: the events still inside the window of the last
`duration` at `now` (inclusive at the trailing edge, per the spec's
interval scenarios). -/
def IntervalStatsObject.windowEvents (o : IntervalStatsObject) (now : Int) :
    List IntervalEvent :=
  o.events.filter (fun e => decide (now - o.duration ≤ e.time))

/-- Modelled from the spec: `SumInto(out[1], now)` — the windowed sum. -/
def IntervalStatsObject.sumInto (o : IntervalStatsObject) (now : Int) : Rat :=
  (o.windowEvents now).foldl (fun acc e => acc + e.value) 0

/-- Modelled from the spec: `DistributionInto(..., now)` — the windowed
distribution, filled into a fresh `Distribution(bucket_boundaries)`. -/
def IntervalStatsObject.distributionInto (o : IntervalStatsObject)
    (bb : BucketBoundaries) (now : Int) : Distribution :=
  (o.windowEvents now).foldl
    (fun d e => d.addWithBucket e.value e.bucket) (Distribution.empty bb)

/-- The four-way union of data maps held by a `ViewDataImpl`. -/
inductive StorageData where
  | doubleData (m : DataMap Rat)
  | intData (m : DataMap Int)
  | distributionData (m : DataMap Distribution)
  | intervalData (m : DataMap IntervalStatsObject)
deriving DecidableEq

/-- The discriminator matching each active map. -/
def StorageData.vtype : StorageData → VType
  | .doubleData _ => .kDouble
  | .intData _ => .kInt64
  | .distributionData _ => .kDistribution
  | .intervalData _ => .kStatsObject

/-- `ViewDataImpl`: aggregation settings, the time range, and the active
tag-keyed map (the C++ `type_` discriminator is recovered by `vtype`). -/
structure ViewDataImpl where
  aggregation : Aggregation
  aggregation_window : AggregationWindow
  start_time : Int
  end_time : Int
  data : StorageData
deriving DecidableEq

/-- The storage-type discriminator of a view (`ViewDataImpl::type()`). -/
def ViewDataImpl.vtype (d : ViewDataImpl) : VType :=
  d.data.vtype

/-- `ViewDataImpl::ViewDataImpl(start_time, descriptor)`: select the storage
type per `TypeForDescriptor` and start with an empty map.  The `end_time_`
initializer lives in `view_data_impl.h`; modelled from the spec:
"`end_time` is initialized equal to `start_time`". -/
def mkViewData (start_time : Int) (descriptor : ViewDescriptor) :
    ViewDataImpl :=
  { aggregation := descriptor.aggregation,
    aggregation_window := descriptor.aggregation_window,
    start_time := start_time,
    end_time := start_time,
    data :=
      match typeForDescriptor descriptor with
      | .kDouble => .doubleData []
      | .kInt64 => .intData []
      | .kDistribution => .distributionData []
      | .kStatsObject => .intervalData [] }

/-- The per-row update of the `kStatsObject` branch of `ViewDataImpl::Add`:
lazily create the `IntervalStatsObject` (ring of `num_buckets + 5` slots for
Distribution, 1 slot otherwise), then record the measurement. -/
def intervalRowUpd (agg : Aggregation) (dur : Int) (value : Rat) (now : Int)
    (o : Option IntervalStatsObject) : IntervalStatsObject :=
  match agg with
  | .distribution bb =>
      (o.getD (IntervalStatsObject.make (bb.numBuckets + 5) dur now)).addToDistribution
        value (bb.bucketForValue value) now
  | a =>
      (o.getD (IntervalStatsObject.make 1 dur now)).addToSlot0
        (if a = Aggregation.count then (1 : Rat) else value) now

/-- `ViewDataImpl::Add(value, tag_values, now)` (view_data_impl.cc). -/
def ViewDataImpl.add (d : ViewDataImpl) (value : Rat) (tag_values : TagKey)
    (now : Int) : ViewDataImpl :=
  let et := max d.end_time now
  match d.data with
  | .doubleData m =>
      { d with end_time := et,
               data := .doubleData
                 (DataMap.upsert m tag_values (fun o => o.getD 0 + value)) }
  | .intData m =>
      { d with end_time := et,
               data := .intData
                 (DataMap.upsert m tag_values (fun o => o.getD 0 + 1)) }
  | .distributionData m =>
      { d with end_time := et,
               data := .distributionData
                 (DataMap.upsert m tag_values (fun o =>
                   Distribution.addValue d.aggregation.bucketBoundaries
                     (o.getD (Distribution.empty d.aggregation.bucketBoundaries))
                     value)) }
  | .intervalData m =>
      { d with end_time := et,
               data := .intervalData
                 (DataMap.upsert m tag_values
                   (intervalRowUpd d.aggregation
                     d.aggregation_window.durationOf value now)) }

/-- `ViewDataImpl::ViewDataImpl(other, now)` — the interval→export snapshot
constructor.  Defined only when the window is Interval and the storage is
the interval map (the source asserts the former); `none` models the
precondition violation. -/
def snapshot (other : ViewDataImpl) (now : Int) : Option ViewDataImpl :=
  match other.aggregation_window, other.data with
  | .interval dur, .intervalData m =>
      some { aggregation := other.aggregation,
             aggregation_window := other.aggregation_window,
             start_time := max other.start_time (now - dur),
             end_time := now,
             data :=
               match other.aggregation with
               | .distribution bb =>
                   .distributionData
                     (DataMap.mapVals (fun o => o.distributionInto bb now) m)
               | _ =>
                   .doubleData
                     (DataMap.mapVals (fun o => o.sumInto now) m) }
  | _, _ => none

/-- The snapshot constructor together with the post-state of its source
(`other` is taken by const reference and only read; the windowed reads are
pure, so the source comes back unchanged). -/
def snapshotWithSrc (other : ViewDataImpl) (now : Int) :
    Option (ViewDataImpl × ViewDataImpl) :=
  match snapshot other now with
  | some e => some (e, other)
  | none => none

/-- A row value of whichever map is active, for uniform row lookup. -/
inductive RowVal where
  | rDouble (x : Rat)
  | rInt (n : Int)
  | rDist (d : Distribution)
  | rObj (o : IntervalStatsObject)
deriving DecidableEq

/-- Uniform row lookup across the four storage variants. -/
def ViewDataImpl.lookupRow (d : ViewDataImpl) (k : TagKey) : Option RowVal :=
  match d.data with
  | .doubleData m => (DataMap.lookup m k).map .rDouble
  | .intData m => (DataMap.lookup m k).map .rInt
  | .distributionData m => (DataMap.lookup m k).map .rDist
  | .intervalData m => (DataMap.lookup m k).map .rObj

/-- Apply a sequence of `Add` calls `(value, tag_values, now)` in order. -/
def addSeq (d : ViewDataImpl) (ops : List (Rat × TagKey × Int)) :
    ViewDataImpl :=
  ops.foldl (fun acc op => acc.add op.1 op.2.1 op.2.2) d

/-- Measure's declared value type. -/
inductive MeasureType where
  | mDouble
  | mInt64
deriving DecidableEq

/-- `MeasureDescriptor`: name, units, description, and value type. -/
structure MeasureDescriptor where
  name : String
  units : String
  description : String
  mtype : MeasureType
deriving DecidableEq

/-- Modelled from the spec: `CreateMeasureId(index, valid, type)` packs the
index into the low 32 bits, validity at bit 32, type at bit 33. -/
def createMeasureId (index : Nat) (isValid : Bool) (t : MeasureType) : Nat :=
  index % 2 ^ 32 + (if isValid then 2 ^ 32 else 0) +
    (if t = MeasureType.mInt64 then 2 ^ 33 else 0)

/-- Modelled from the spec: `IdValid(id)` reads the validity bit (bit 32). -/
def idValid (id : Nat) : Bool :=
  Nat.testBit id 32

/-- Modelled from the spec: `IdToIndex(id)` is the low 32 bits. -/
def idToIndex (id : Nat) : Nat :=
  id % 2 ^ 32

/-- Modelled from the spec: `IdToType(id)` reads the type bit (bit 33). -/
def idToType (id : Nat) : MeasureType :=
  if Nat.testBit id 33 then .mInt64 else .mDouble

/-- The registry's guarded state: the descriptor list and the name→id map. -/
structure RegistryState where
  registered_descriptors : List MeasureDescriptor
  id_map : List (String × Nat)
deriving DecidableEq

/-- Lookup in the name→id map. -/
def lookupName : List (String × Nat) → String → Option Nat
  | [], _ => none
  | (n, id) :: rest, name => if n = name then some id else lookupName rest name

/-- Modelled from the spec: `MeasureRegistryImpl::RegisterImpl(descriptor)` —
if the name is already present return the existing id unchanged; otherwise
append the descriptor, pack `id = create_id(index, valid, type)` with
`index = len - 1`, and record `name → id`. -/
def registerImpl (st : RegistryState) (descriptor : MeasureDescriptor) :
    Nat × RegistryState :=
  match lookupName st.id_map descriptor.name with
  | some id => (id, st)
  | none =>
      let index := st.registered_descriptors.length
      let id := createMeasureId index true descriptor.mtype
      (id, { registered_descriptors := st.registered_descriptors ++ [descriptor],
             id_map := st.id_map ++ [(descriptor.name, id)] })

/-- `RegisterDouble(name, units, description)`. -/
def registerDouble (st : RegistryState) (name units description : String) :
    Nat × RegistryState :=
  registerImpl st ⟨name, units, description, .mDouble⟩

/-- `RegisterInt(name, units, description)`. -/
def registerInt (st : RegistryState) (name units description : String) :
    Nat × RegistryState :=
  registerImpl st ⟨name, units, description, .mInt64⟩

/-- The shared empty default descriptor of `GetDescriptor`. -/
def defaultDescriptor : MeasureDescriptor :=
  ⟨"", "", "", .mDouble⟩

/-- `MeasureRegistryImpl::GetDescriptor(measure)` (measure_registry_impl.h):
the default descriptor for an invalid handle, otherwise the registered
descriptor at the handle's index. -/
def getDescriptor (st : RegistryState) (id : Nat) : MeasureDescriptor :=
  if idValid id then
    st.registered_descriptors.getD (idToIndex id) defaultDescriptor
  else defaultDescriptor

/-! ### Helper lemmas -/

theorem lookup_upsert_self {α : Type} (m : DataMap α) (k : TagKey)
    (f : Option α → α) :
    DataMap.lookup (DataMap.upsert m k f) k = some (f (DataMap.lookup m k)) := by
  induction m with
  | nil => simp [DataMap.upsert, DataMap.lookup]
  | cons hd tl ih =>
      obtain ⟨k', v⟩ := hd
      by_cases h : k' = k <;> simp [DataMap.upsert, DataMap.lookup, h, ih]

theorem lookup_upsert_ne {α : Type} (m : DataMap α) (k k2 : TagKey)
    (f : Option α → α) (h : k2 ≠ k) :
    DataMap.lookup (DataMap.upsert m k f) k2 = DataMap.lookup m k2 := by
  have hne : ¬ k = k2 := fun e => h e.symm
  induction m with
  | nil => simp [DataMap.upsert, DataMap.lookup, hne]
  | cons hd tl ih =>
      obtain ⟨k', v⟩ := hd
      by_cases hk : k' = k
      · subst hk
        simp [DataMap.upsert, DataMap.lookup, hne]
      · by_cases hk2 : k' = k2 <;>
          simp [DataMap.upsert, DataMap.lookup, hk, hk2, h, ih]

theorem lookup_upsert_isSome {α : Type} (m : DataMap α) (k k2 : TagKey)
    (f : Option α → α) (h : (DataMap.lookup m k2).isSome) :
    (DataMap.lookup (DataMap.upsert m k f) k2).isSome := by
  by_cases hk : k2 = k
  · subst hk
    simp [lookup_upsert_self]
  · rwa [lookup_upsert_ne m k k2 f hk]

theorem lookup_mapVals {α β : Type} (g : α → β) (m : DataMap α) (k : TagKey) :
    DataMap.lookup (DataMap.mapVals g m) k = (DataMap.lookup m k).map g := by
  induction m with
  | nil => simp [DataMap.mapVals, DataMap.lookup]
  | cons hd tl ih =>
      obtain ⟨k', v⟩ := hd
      by_cases h : k' = k <;> simp [DataMap.mapVals, DataMap.lookup, h] at ih ⊢ <;>
        simpa [DataMap.mapVals] using ih

theorem add_start_time (d : ViewDataImpl) (value : Rat) (k : TagKey) (now : Int) :
    (d.add value k now).start_time = d.start_time := by
  rcases d with ⟨agg, win, st, et, data⟩
  cases data <;> rfl

theorem add_aggregation (d : ViewDataImpl) (value : Rat) (k : TagKey) (now : Int) :
    (d.add value k now).aggregation = d.aggregation := by
  rcases d with ⟨agg, win, st, et, data⟩
  cases data <;> rfl

theorem add_aggregation_window (d : ViewDataImpl) (value : Rat) (k : TagKey)
    (now : Int) :
    (d.add value k now).aggregation_window = d.aggregation_window := by
  rcases d with ⟨agg, win, st, et, data⟩
  cases data <;> rfl

theorem add_end_time (d : ViewDataImpl) (value : Rat) (k : TagKey) (now : Int) :
    (d.add value k now).end_time = max d.end_time now := by
  rcases d with ⟨agg, win, st, et, data⟩
  cases data <;> rfl

theorem add_vtype (d : ViewDataImpl) (value : Rat) (k : TagKey) (now : Int) :
    (d.add value k now).vtype = d.vtype := by
  rcases d with ⟨agg, win, st, et, data⟩
  cases data <;> rfl

theorem add_data_interval (d : ViewDataImpl) (value : Rat) (k : TagKey)
    (now : Int) (m : DataMap IntervalStatsObject) (h : d.data = .intervalData m) :
    (d.add value k now).data =
      .intervalData (DataMap.upsert m k
        (intervalRowUpd d.aggregation d.aggregation_window.durationOf value now)) := by
  rcases d with ⟨agg, win, st, et, data⟩
  cases data <;> simp_all [ViewDataImpl.add]

theorem addSeq_start_time (ops : List (Rat × TagKey × Int)) (d : ViewDataImpl) :
    (addSeq d ops).start_time = d.start_time := by
  induction ops generalizing d with
  | nil => rfl
  | cons op rest ih =>
      simpa [addSeq, add_start_time] using
        (ih (d.add op.1 op.2.1 op.2.2)).trans (add_start_time d op.1 op.2.1 op.2.2)

theorem addSeq_aggregation (ops : List (Rat × TagKey × Int)) (d : ViewDataImpl) :
    (addSeq d ops).aggregation = d.aggregation := by
  induction ops generalizing d with
  | nil => rfl
  | cons op rest ih =>
      simpa [addSeq, add_aggregation] using
        (ih (d.add op.1 op.2.1 op.2.2)).trans (add_aggregation d op.1 op.2.1 op.2.2)

theorem addSeq_aggregation_window (ops : List (Rat × TagKey × Int))
    (d : ViewDataImpl) :
    (addSeq d ops).aggregation_window = d.aggregation_window := by
  induction ops generalizing d with
  | nil => rfl
  | cons op rest ih =>
      simpa [addSeq, add_aggregation_window] using
        (ih (d.add op.1 op.2.1 op.2.2)).trans
          (add_aggregation_window d op.1 op.2.1 op.2.2)

theorem addSeq_end_time (ops : List (Rat × TagKey × Int)) (d : ViewDataImpl) :
    (addSeq d ops).end_time = ops.foldl (fun acc op => max acc op.2.2) d.end_time := by
  induction ops generalizing d with
  | nil => rfl
  | cons op rest ih =>
      simpa [addSeq, List.foldl, add_end_time] using
        ih (d.add op.1 op.2.1 op.2.2)

theorem addSeq_interval_presence (ops : List (Rat × TagKey × Int))
    (d : ViewDataImpl) (m : DataMap IntervalStatsObject) (k : TagKey)
    (hd : d.data = .intervalData m) (hk : (DataMap.lookup m k).isSome) :
    ∃ m2, (addSeq d ops).data = .intervalData m2 ∧
      (DataMap.lookup m2 k).isSome := by
  induction ops generalizing d m with
  | nil => exact ⟨m, hd, hk⟩
  | cons op rest ih =>
      have hstep := add_data_interval d op.1 op.2.1 op.2.2 m hd
      exact ih (d.add op.1 op.2.1 op.2.2) _ hstep
        (lookup_upsert_isSome m op.2.1 k _ hk)

theorem windowEvents_decayed (o : IntervalStatsObject) (now : Int)
    (h : ∀ ev ∈ o.events, ev.time < now - o.duration) :
    o.windowEvents now = [] := by
  rw [IntervalStatsObject.windowEvents, List.filter_eq_nil]
  intro ev hev
  have := h ev hev
  simp only [decide_eq_true_eq]
  omega

theorem sumInto_decayed (o : IntervalStatsObject) (now : Int)
    (h : ∀ ev ∈ o.events, ev.time < now - o.duration) :
    o.sumInto now = 0 := by
  rw [IntervalStatsObject.sumInto, windowEvents_decayed o now h]
  rfl

theorem distributionInto_decayed (o : IntervalStatsObject)
    (bb : BucketBoundaries) (now : Int)
    (h : ∀ ev ∈ o.events, ev.time < now - o.duration) :
    o.distributionInto bb now = Distribution.empty bb := by
  rw [IntervalStatsObject.distributionInto, windowEvents_decayed o now h]
  rfl

theorem le_foldl_max (ops : List (Rat × TagKey × Int)) (a b : Int)
    (h : a ≤ b) :
    a ≤ ops.foldl (fun acc op => max acc op.2.2) b := by
  induction ops generalizing b with
  | nil => exact h
  | cons op rest ih =>
      exact ih (max b op.2.2) (le_trans h (le_max_left _ _))

theorem snapshot_some (d : ViewDataImpl) (now dur : Int)
    (m : DataMap IntervalStatsObject)
    (hw : d.aggregation_window = .interval dur) (hd : d.data = .intervalData m) :
    snapshot d now = some
      { aggregation := d.aggregation,
        aggregation_window := d.aggregation_window,
        start_time := max d.start_time (now - dur),
        end_time := now,
        data :=
          match d.aggregation with
          | .distribution bb =>
              .distributionData
                (DataMap.mapVals (fun o => o.distributionInto bb now) m)
          | _ =>
              .doubleData (DataMap.mapVals (fun o => o.sumInto now) m) } := by
  rcases d with ⟨agg, win, st, et, data⟩
  simp only at hw hd
  subst hw hd
  rfl

theorem lookupName_append_self (l : List (String × Nat)) (n : String)
    (id : Nat) (h : lookupName l n = none) :
    lookupName (l ++ [(n, id)]) n = some id := by
  induction l with
  | nil => simp [lookupName]
  | cons hd tl ih =>
      obtain ⟨n', id'⟩ := hd
      by_cases hn : n' = n <;> simp_all [lookupName]

theorem registerImpl_lookup (st : RegistryState) (descriptor : MeasureDescriptor) :
    lookupName (registerImpl st descriptor).2.id_map descriptor.name
      = some (registerImpl st descriptor).1 := by
  rcases h : lookupName st.id_map descriptor.name with _ | id
  · simp [registerImpl, h, lookupName_append_self _ _ _ h]
  · simp [registerImpl, h]

/-! ### Claim theorems -/

/-- C1: For every interval `ViewDataImpl` with window `Interval(duration)` and
every time `now`, the snapshot constructor produces a view whose `start_time`
is `max(other.start_time, now - duration)`, whose `end_time` is `now`, whose
aggregation and aggregation window equal the source's, and whose storage type
is `Distribution` if the aggregation is Distribution and `Double` otherwise. -/
theorem snapshot_interval_fields (d : ViewDataImpl) (dur now : Int)
    (m : DataMap IntervalStatsObject) (e : ViewDataImpl)
    (hw : d.aggregation_window = .interval dur)
    (hd : d.data = .intervalData m)
    (hs : snapshot d now = some e) :
    e.start_time = max d.start_time (now - dur) ∧
    e.end_time = now ∧
    e.aggregation = d.aggregation ∧
    e.aggregation_window = d.aggregation_window ∧
    e.vtype = (match d.aggregation with
               | .distribution _ => VType.kDistribution
               | _ => VType.kDouble) := by
  have h := snapshot_some d now dur m hw hd
  rw [h] at hs
  have he := Option.some.inj hs
  subst he
  refine ⟨rfl, rfl, rfl, rfl, ?_⟩
  cases hag : d.aggregation <;>
    simp [hag, ViewDataImpl.vtype, StorageData.vtype]

/-- Witness for C1 at a concrete interval Sum view. -/
theorem snapshot_interval_fields_witness :
    ((mkViewData 0 ⟨Aggregation.sum, AggregationWindow.interval 60⟩).aggregation_window
        = AggregationWindow.interval 60 ∧
     (mkViewData 0 ⟨Aggregation.sum, AggregationWindow.interval 60⟩).data
        = StorageData.intervalData [] ∧
     snapshot (mkViewData 0 ⟨Aggregation.sum, AggregationWindow.interval 60⟩) 5
        = some (ViewDataImpl.mk Aggregation.sum (AggregationWindow.interval 60) 0 5
            (StorageData.doubleData []))) ∧
    ((ViewDataImpl.mk Aggregation.sum (AggregationWindow.interval 60) 0 5
        (StorageData.doubleData [])).start_time = max 0 (5 - 60) ∧
     (ViewDataImpl.mk Aggregation.sum (AggregationWindow.interval 60) 0 5
        (StorageData.doubleData [])).end_time = 5 ∧
     (ViewDataImpl.mk Aggregation.sum (AggregationWindow.interval 60) 0 5
        (StorageData.doubleData [])).aggregation = Aggregation.sum ∧
     (ViewDataImpl.mk Aggregation.sum (AggregationWindow.interval 60) 0 5
        (StorageData.doubleData [])).aggregation_window = AggregationWindow.interval 60 ∧
     (ViewDataImpl.mk Aggregation.sum (AggregationWindow.interval 60) 0 5
        (StorageData.doubleData [])).vtype = VType.kDouble) := by
  refine ⟨⟨rfl, rfl, by decide⟩, ?_⟩
  exact snapshot_interval_fields
    (mkViewData 0 ⟨Aggregation.sum, AggregationWindow.interval 60⟩) 60 5 []
    (ViewDataImpl.mk Aggregation.sum (AggregationWindow.interval 60) 0 5
      (StorageData.doubleData [])) rfl rfl (by decide)

/-- C2: For every cumulative view, `Add(value, tag_values, now)` updates the
row for `tag_values` as: Double storage adds `value` (starting from 0 for an
unseen key); Int64 storage adds 1 ignoring the value; Distribution storage
starts from a fresh `Distribution(bucket_boundaries)` on first use and
records `value` into it. -/
theorem add_cumulative_spec (d : ViewDataImpl) (value : Rat) (k : TagKey)
    (now : Int) :
    (∀ m : DataMap Rat, d.data = .doubleData m →
       (d.add value k now).lookupRow k
         = some (.rDouble ((DataMap.lookup m k).getD 0 + value))) ∧
    (∀ m : DataMap Int, d.data = .intData m →
       (d.add value k now).lookupRow k
         = some (.rInt ((DataMap.lookup m k).getD 0 + 1))) ∧
    (∀ m : DataMap Distribution, d.data = .distributionData m →
       (d.add value k now).lookupRow k
         = some (.rDist (Distribution.addValue d.aggregation.bucketBoundaries
             ((DataMap.lookup m k).getD
               (Distribution.empty d.aggregation.bucketBoundaries)) value))) := by
  rcases d with ⟨agg, win, st, et, data⟩
  refine ⟨?_, ?_, ?_⟩ <;> intro m hm <;> cases data <;>
    simp_all [ViewDataImpl.add, ViewDataImpl.lookupRow, lookup_upsert_self]

/-- Witness for C2 at concrete Sum, Count, and Distribution cumulative views. -/
theorem add_cumulative_spec_witness :
    ((mkViewData 0 ⟨Aggregation.sum, AggregationWindow.cumulative⟩).data
        = StorageData.doubleData [] ∧
     ((mkViewData 0 ⟨Aggregation.sum, AggregationWindow.cumulative⟩).add 5 ["a"] 7).lookupRow ["a"]
        = some (.rDouble ((DataMap.lookup ([] : DataMap Rat) ["a"]).getD 0 + 5))) ∧
    ((mkViewData 0 ⟨Aggregation.count, AggregationWindow.cumulative⟩).data
        = StorageData.intData [] ∧
     ((mkViewData 0 ⟨Aggregation.count, AggregationWindow.cumulative⟩).add 5 ["a"] 7).lookupRow ["a"]
        = some (.rInt ((DataMap.lookup ([] : DataMap Int) ["a"]).getD 0 + 1))) ∧
    ((mkViewData 0 ⟨Aggregation.distribution ⟨[10]⟩, AggregationWindow.cumulative⟩).data
        = StorageData.distributionData [] ∧
     ((mkViewData 0 ⟨Aggregation.distribution ⟨[10]⟩, AggregationWindow.cumulative⟩).add 5 ["a"] 7).lookupRow ["a"]
        = some (.rDist (Distribution.addValue
            (mkViewData 0 ⟨Aggregation.distribution ⟨[10]⟩, AggregationWindow.cumulative⟩).aggregation.bucketBoundaries
            ((DataMap.lookup ([] : DataMap Distribution) ["a"]).getD
              (Distribution.empty
                (mkViewData 0 ⟨Aggregation.distribution ⟨[10]⟩, AggregationWindow.cumulative⟩).aggregation.bucketBoundaries)) 5))) := by
  refine ⟨⟨rfl, ?_⟩, ⟨rfl, ?_⟩, ⟨rfl, ?_⟩⟩
  · exact (add_cumulative_spec
      (mkViewData 0 ⟨Aggregation.sum, AggregationWindow.cumulative⟩) 5 ["a"] 7).1 [] rfl
  · exact (add_cumulative_spec
      (mkViewData 0 ⟨Aggregation.count, AggregationWindow.cumulative⟩) 5 ["a"] 7).2.1 [] rfl
  · exact (add_cumulative_spec
      (mkViewData 0 ⟨Aggregation.distribution ⟨[10]⟩, AggregationWindow.cumulative⟩) 5 ["a"] 7).2.2 [] rfl

/-- C3: For every interval (StatsObject) view, `Add(value, tag_values, now)`
on a missing row inserts, for a Distribution aggregation, an
`IntervalStatsObject` of `num_buckets + 5` slots with the window's duration
anchored at `now` and records
`AddToDistribution(value, bucket_for_value(value), now)` on it; otherwise an
`IntervalStatsObject` of 1 slot whose slot 0 of the current sub-bucket gains
`1.0` for Count and `value` for Sum. -/
theorem add_interval_spec (d : ViewDataImpl) (value : Rat) (k : TagKey)
    (now : Int) :
    (∀ (m : DataMap IntervalStatsObject) (bb : BucketBoundaries),
       d.data = .intervalData m → d.aggregation = .distribution bb →
       DataMap.lookup m k = none →
       (d.add value k now).lookupRow k = some (.rObj
         ((IntervalStatsObject.make (bb.numBuckets + 5)
             d.aggregation_window.durationOf now).addToDistribution
           value (bb.bucketForValue value) now))) ∧
    (∀ m : DataMap IntervalStatsObject,
       d.data = .intervalData m → d.aggregation = .count →
       DataMap.lookup m k = none →
       (d.add value k now).lookupRow k = some (.rObj
         ((IntervalStatsObject.make 1
             d.aggregation_window.durationOf now).addToSlot0 1 now))) ∧
    (∀ m : DataMap IntervalStatsObject,
       d.data = .intervalData m → d.aggregation = .sum →
       DataMap.lookup m k = none →
       (d.add value k now).lookupRow k = some (.rObj
         ((IntervalStatsObject.make 1
             d.aggregation_window.durationOf now).addToSlot0 value now))) := by
  rcases d with ⟨agg, win, st, et, data⟩
  refine ⟨?_, ?_, ?_⟩
  · intro m bb hm hagg hnone
    cases data <;> simp_all [ViewDataImpl.add, ViewDataImpl.lookupRow,
      lookup_upsert_self, intervalRowUpd]
  · intro m hm hagg hnone
    cases data <;> simp_all [ViewDataImpl.add, ViewDataImpl.lookupRow,
      lookup_upsert_self, intervalRowUpd]
  · intro m hm hagg hnone
    cases data <;> simp_all [ViewDataImpl.add, ViewDataImpl.lookupRow,
      lookup_upsert_self, intervalRowUpd]

/-- Witness for C3 at concrete interval Distribution, Count, and Sum views. -/
theorem add_interval_spec_witness :
    ((mkViewData 0 ⟨Aggregation.distribution ⟨[10]⟩, AggregationWindow.interval 60⟩).data
        = StorageData.intervalData [] ∧
     ((mkViewData 0 ⟨Aggregation.distribution ⟨[10]⟩, AggregationWindow.interval 60⟩).add 15 ["a"] 7).lookupRow ["a"]
        = some (.rObj ((IntervalStatsObject.make ((⟨[10]⟩ : BucketBoundaries).numBuckets + 5)
            (mkViewData 0 ⟨Aggregation.distribution ⟨[10]⟩, AggregationWindow.interval 60⟩).aggregation_window.durationOf
            7).addToDistribution 15 ((⟨[10]⟩ : BucketBoundaries).bucketForValue 15) 7))) ∧
    ((mkViewData 0 ⟨Aggregation.count, AggregationWindow.interval 60⟩).data
        = StorageData.intervalData [] ∧
     ((mkViewData 0 ⟨Aggregation.count, AggregationWindow.interval 60⟩).add 15 ["a"] 7).lookupRow ["a"]
        = some (.rObj ((IntervalStatsObject.make 1
            (mkViewData 0 ⟨Aggregation.count, AggregationWindow.interval 60⟩).aggregation_window.durationOf
            7).addToSlot0 1 7))) ∧
    ((mkViewData 0 ⟨Aggregation.sum, AggregationWindow.interval 60⟩).data
        = StorageData.intervalData [] ∧
     ((mkViewData 0 ⟨Aggregation.sum, AggregationWindow.interval 60⟩).add 15 ["a"] 7).lookupRow ["a"]
        = some (.rObj ((IntervalStatsObject.make 1
            (mkViewData 0 ⟨Aggregation.sum, AggregationWindow.interval 60⟩).aggregation_window.durationOf
            7).addToSlot0 15 7))) := by
  refine ⟨⟨rfl, ?_⟩, ⟨rfl, ?_⟩, ⟨rfl, ?_⟩⟩
  · exact (add_interval_spec
      (mkViewData 0 ⟨Aggregation.distribution ⟨[10]⟩, AggregationWindow.interval 60⟩)
      15 ["a"] 7).1 [] ⟨[10]⟩ rfl rfl rfl
  · exact (add_interval_spec
      (mkViewData 0 ⟨Aggregation.count, AggregationWindow.interval 60⟩)
      15 ["a"] 7).2.1 [] rfl rfl rfl
  · exact (add_interval_spec
      (mkViewData 0 ⟨Aggregation.sum, AggregationWindow.interval 60⟩)
      15 ["a"] 7).2.2 [] rfl rfl rfl

/-- C4 counterexample: `Add` takes `end_time ← max(end_time, now)` starting
from `start_time`, so an `Add` whose `now` precedes `start_time` leaves
`end_time = start_time`, not the maximum `now` passed to any Add: with
`start_time = 1` and a single `Add` at `now = 0`, `end_time` is `1`, but the
maximum `now` passed to Add is `0`. -/
theorem end_time_counterexample :
    ((mkViewData 1 ⟨Aggregation.sum, AggregationWindow.cumulative⟩).add 5 ["a"] 0).end_time = 1 ∧
    (1 : Int) ≠ 0 := by
  exact ⟨rfl, by decide⟩

/-- C4 (amended): `end_time` is initialized equal to `start_time`, and after
any sequence of Adds it equals the maximum of `start_time` and every `now`
passed to an Add; hence `end_time ≥ start_time` and `end_time` is
monotonically non-decreasing across Adds. -/
theorem end_time_spec (t : Int) (descriptor : ViewDescriptor)
    (ops : List (Rat × TagKey × Int)) (d : ViewDataImpl) (value : Rat)
    (k : TagKey) (now : Int) :
    (mkViewData t descriptor).end_time = t ∧
    (addSeq (mkViewData t descriptor) ops).end_time
      = ops.foldl (fun acc op => max acc op.2.2) t ∧
    (addSeq (mkViewData t descriptor) ops).start_time = t ∧
    t ≤ (addSeq (mkViewData t descriptor) ops).end_time ∧
    d.end_time ≤ (d.add value k now).end_time := by
  refine ⟨rfl, ?_, addSeq_start_time ops (mkViewData t descriptor), ?_, ?_⟩
  · simpa using addSeq_end_time ops (mkViewData t descriptor)
  · rw [addSeq_end_time]
    exact le_foldl_max ops t t le_rfl
  · rw [add_end_time]
    exact le_max_left _ _

/-- C5: the storage type selected at construction is Double for
Cumulative+Sum, Int64 for Cumulative+Count, Distribution for
Cumulative+Distribution, StatsObject for any Interval window; the
constructed view carries exactly that type, and `Add` never changes it. -/
theorem type_selection (t : Int) (descriptor : ViewDescriptor)
    (d : ViewDataImpl) (value : Rat) (k : TagKey) (now : Int) :
    typeForDescriptor ⟨.sum, .cumulative⟩ = .kDouble ∧
    typeForDescriptor ⟨.count, .cumulative⟩ = .kInt64 ∧
    (∀ bb, typeForDescriptor ⟨.distribution bb, .cumulative⟩ = .kDistribution) ∧
    (∀ a dur, typeForDescriptor ⟨a, .interval dur⟩ = .kStatsObject) ∧
    (mkViewData t descriptor).vtype = typeForDescriptor descriptor ∧
    (d.add value k now).vtype = d.vtype := by
  refine ⟨rfl, rfl, fun bb => rfl, fun a dur => rfl, ?_, add_vtype d value k now⟩
  rcases descriptor with ⟨agg, win⟩
  cases win <;> cases agg <;> rfl

/-- C6: a tag key once passed to `Add` on an interval view remains a row of
`interval_data` through any later Adds, every later snapshot contains a row
for it, and a fully decayed row (all its events older than the window)
exports the empty distribution (`count = 0`, `min = +∞`, `max = -∞`, all
bucket counts zero) for a Distribution aggregation and value `0` for
Sum/Count. -/
theorem interval_rows_persist (d : ViewDataImpl)
    (m : DataMap IntervalStatsObject) (dur : Int) (value : Rat) (k : TagKey)
    (now : Int) (ops : List (Rat × TagKey × Int)) (now2 : Int)
    (e : ViewDataImpl)
    (hd : d.data = .intervalData m)
    (hw : d.aggregation_window = .interval dur)
    (hs : snapshot (addSeq (d.add value k now) ops) now2 = some e) :
    ((addSeq (d.add value k now) ops).lookupRow k).isSome ∧
    (e.lookupRow k).isSome ∧
    (∀ (m2 : DataMap IntervalStatsObject) (obj : IntervalStatsObject),
       (addSeq (d.add value k now) ops).data = .intervalData m2 →
       DataMap.lookup m2 k = some obj →
       (∀ ev ∈ obj.events, ev.time < now2 - obj.duration) →
       (∀ bb, d.aggregation = .distribution bb →
          e.lookupRow k = some (.rDist (Distribution.empty bb))) ∧
       ((d.aggregation = .sum ∨ d.aggregation = .count) →
          e.lookupRow k = some (.rDouble 0))) := by
  have hd1 := add_data_interval d value k now m hd
  have hk1 : (DataMap.lookup
      (DataMap.upsert m k
        (intervalRowUpd d.aggregation d.aggregation_window.durationOf value now)) k).isSome := by
    simp [lookup_upsert_self]
  obtain ⟨m2, hm2, hkm2⟩ :=
    addSeq_interval_presence ops (d.add value k now) _ k hd1 hk1
  have hwD : (addSeq (d.add value k now) ops).aggregation_window = .interval dur := by
    rw [addSeq_aggregation_window, add_aggregation_window, hw]
  have haggD : (addSeq (d.add value k now) ops).aggregation = d.aggregation := by
    rw [addSeq_aggregation, add_aggregation]
  have hsome := snapshot_some (addSeq (d.add value k now) ops) now2 dur m2 hwD hm2
  rw [hsome] at hs
  have he := Option.some.inj hs
  subst he
  refine ⟨?_, ?_, ?_⟩
  · simp [ViewDataImpl.lookupRow, hm2, hkm2]
  · cases hag : d.aggregation <;> rw [hag] at haggD <;>
      simp [ViewDataImpl.lookupRow, haggD, lookup_mapVals, hkm2]
  · intro m2' obj hm2' hobj hdecay
    rw [hm2] at hm2'
    have hmm : m2 = m2' := by
      injection hm2' with h0
    subst hmm
    constructor
    · intro bb hbb
      rw [hbb] at haggD
      rw [hobj] at hkm2
      simp [ViewDataImpl.lookupRow, haggD, lookup_mapVals, hobj,
        distributionInto_decayed obj bb now2 hdecay]
    · intro hsc
      rw [hobj] at hkm2
      rcases hsc with hbb | hbb <;> rw [hbb] at haggD <;>
        simp [ViewDataImpl.lookupRow, haggD, lookup_mapVals, hobj,
          sumInto_decayed obj now2 hdecay]

/-- Witness for C6: an interval Sum view whose row `["B"]` has fully decayed
by the second snapshot yet still exports, with value `0`. -/
theorem interval_rows_persist_witness :
    ((mkViewData 0 ⟨Aggregation.sum, AggregationWindow.interval 60⟩).data
        = StorageData.intervalData [] ∧
     snapshot (addSeq ((mkViewData 0 ⟨Aggregation.sum, AggregationWindow.interval 60⟩).add 5 ["B"] 0)
         [(2, ["A"], 30)]) 90
       = some (ViewDataImpl.mk Aggregation.sum (AggregationWindow.interval 60) 30 90
           (StorageData.doubleData [(["B"], 0), (["A"], 2)]))) ∧
    ((addSeq ((mkViewData 0 ⟨Aggregation.sum, AggregationWindow.interval 60⟩).add 5 ["B"] 0)
        [(2, ["A"], 30)]).lookupRow ["B"]).isSome ∧
    ((ViewDataImpl.mk Aggregation.sum (AggregationWindow.interval 60) 30 90
        (StorageData.doubleData [(["B"], 0), (["A"], 2)])).lookupRow ["B"]).isSome ∧
    (ViewDataImpl.mk Aggregation.sum (AggregationWindow.interval 60) 30 90
        (StorageData.doubleData [(["B"], 0), (["A"], 2)])).lookupRow ["B"]
      = some (.rDouble 0) := by
  have hsnap : snapshot (addSeq ((mkViewData 0 ⟨Aggregation.sum, AggregationWindow.interval 60⟩).add 5 ["B"] 0)
      [(2, ["A"], 30)]) 90
      = some (ViewDataImpl.mk Aggregation.sum (AggregationWindow.interval 60) 30 90
          (StorageData.doubleData [(["B"], 0), (["A"], 2)])) := by
    simp [snapshot, addSeq, ViewDataImpl.add, mkViewData, typeForDescriptor, intervalRowUpd,
      DataMap.upsert, DataMap.mapVals, IntervalStatsObject.sumInto,
      IntervalStatsObject.windowEvents, IntervalStatsObject.make,
      IntervalStatsObject.addToSlot0, AggregationWindow.durationOf, List.filter, List.foldl]
  have h := interval_rows_persist
    (mkViewData 0 ⟨Aggregation.sum, AggregationWindow.interval 60⟩) [] 60 5 ["B"] 0
    [(2, ["A"], 30)] 90
    (ViewDataImpl.mk Aggregation.sum (AggregationWindow.interval 60) 30 90
      (StorageData.doubleData [(["B"], 0), (["A"], 2)]))
    rfl rfl hsnap
  refine ⟨⟨rfl, hsnap⟩, h.1, h.2.1, ?_⟩
  exact (h.2.2
    [(["B"], IntervalStatsObject.mk 1 60 0 [⟨5, 0, 0⟩]),
     (["A"], IntervalStatsObject.mk 1 60 30 [⟨2, 0, 30⟩])]
    (IntervalStatsObject.mk 1 60 0 [⟨5, 0, 0⟩])
    (by decide) (by decide) (by decide)).2 (Or.inl rfl)

/-- C7: the interval→export snapshot constructor is read-only on its source:
the source's data map, `start_time`, `end_time`, aggregation, and window all
come back unchanged. -/
theorem snapshot_readonly (d : ViewDataImpl) (now : Int)
    (e dPost : ViewDataImpl)
    (h : snapshotWithSrc d now = some (e, dPost)) :
    dPost.data = d.data ∧ dPost.start_time = d.start_time ∧
    dPost.end_time = d.end_time ∧ dPost.aggregation = d.aggregation ∧
    dPost.aggregation_window = d.aggregation_window := by
  unfold snapshotWithSrc at h
  split at h
  · have h3 := Option.some.inj h
    rw [Prod.mk.injEq] at h3
    obtain ⟨h1, h2⟩ := h3
    subst h2
    exact ⟨rfl, rfl, rfl, rfl, rfl⟩
  · exact Option.noConfusion h

/-- Witness for C7 at a concrete interval Sum view. -/
theorem snapshot_readonly_witness :
    snapshotWithSrc (mkViewData 0 ⟨Aggregation.sum, AggregationWindow.interval 60⟩) 5
      = some (ViewDataImpl.mk Aggregation.sum (AggregationWindow.interval 60) 0 5
            (StorageData.doubleData []),
          mkViewData 0 ⟨Aggregation.sum, AggregationWindow.interval 60⟩) ∧
    (mkViewData 0 ⟨Aggregation.sum, AggregationWindow.interval 60⟩).data
      = (mkViewData 0 ⟨Aggregation.sum, AggregationWindow.interval 60⟩).data ∧
    (mkViewData 0 ⟨Aggregation.sum, AggregationWindow.interval 60⟩).start_time
      = (mkViewData 0 ⟨Aggregation.sum, AggregationWindow.interval 60⟩).start_time ∧
    (mkViewData 0 ⟨Aggregation.sum, AggregationWindow.interval 60⟩).end_time
      = (mkViewData 0 ⟨Aggregation.sum, AggregationWindow.interval 60⟩).end_time ∧
    (mkViewData 0 ⟨Aggregation.sum, AggregationWindow.interval 60⟩).aggregation
      = (mkViewData 0 ⟨Aggregation.sum, AggregationWindow.interval 60⟩).aggregation ∧
    (mkViewData 0 ⟨Aggregation.sum, AggregationWindow.interval 60⟩).aggregation_window
      = (mkViewData 0 ⟨Aggregation.sum, AggregationWindow.interval 60⟩).aggregation_window := by
  refine ⟨by decide, ?_⟩
  exact snapshot_readonly (mkViewData 0 ⟨Aggregation.sum, AggregationWindow.interval 60⟩) 5
    (ViewDataImpl.mk Aggregation.sum (AggregationWindow.interval 60) 0 5
      (StorageData.doubleData []))
    (mkViewData 0 ⟨Aggregation.sum, AggregationWindow.interval 60⟩) (by decide)

/-- C8: registration is idempotent by name and never fails — after any
registration of `name`, registering the same name again via either
`RegisterDouble` or `RegisterInt`, with any units, description, or type,
returns the already assigned id and leaves the descriptor list and the name
map unchanged. -/
theorem register_idempotent (st : RegistryState)
    (name u1 du1 u2 du2 : String) (t1 : MeasureType) :
    registerDouble (registerImpl st ⟨name, u1, du1, t1⟩).2 name u2 du2
      = ((registerImpl st ⟨name, u1, du1, t1⟩).1,
         (registerImpl st ⟨name, u1, du1, t1⟩).2) ∧
    registerInt (registerImpl st ⟨name, u1, du1, t1⟩).2 name u2 du2
      = ((registerImpl st ⟨name, u1, du1, t1⟩).1,
         (registerImpl st ⟨name, u1, du1, t1⟩).2) := by
  have hl := registerImpl_lookup st ⟨name, u1, du1, t1⟩
  rcases hfst : registerImpl st ⟨name, u1, du1, t1⟩ with ⟨id1, st1⟩
  rw [hfst] at hl
  simp only at hl
  constructor <;> simp [registerDouble, registerInt, registerImpl, hl]

/-- C9: `GetDescriptor` never fails — an invalid handle yields the shared
empty default descriptor (empty name, units, description, type Double), and
a valid handle yields the registered descriptor at the handle's index. -/
theorem getDescriptor_total (st : RegistryState) (id : Nat) :
    (idValid id = false → getDescriptor st id = defaultDescriptor) ∧
    defaultDescriptor.name = "" ∧ defaultDescriptor.units = "" ∧
    defaultDescriptor.description = "" ∧
    defaultDescriptor.mtype = .mDouble ∧
    (idValid id = true →
       ∀ h : idToIndex id < st.registered_descriptors.length,
         getDescriptor st id = st.registered_descriptors.get ⟨idToIndex id, h⟩) := by
  refine ⟨?_, rfl, rfl, rfl, rfl, ?_⟩
  · intro h
    simp [getDescriptor, h]
  · intro h hlt
    simp [getDescriptor, h, List.getD_eq_getElem?_getD,
      List.getElem?_eq_getElem hlt, List.get_eq_getElem]

/-- Witness for C9: an invalid id and a valid id into a one-element registry. -/
theorem getDescriptor_total_witness :
    (idValid 7 = false ∧
     getDescriptor ⟨[⟨"m", "u", "dd", .mDouble⟩], []⟩ 7 = defaultDescriptor) ∧
    (idValid 4294967296 = true ∧ idToIndex 4294967296 < 1 ∧
     getDescriptor ⟨[⟨"m", "u", "dd", .mDouble⟩], []⟩ 4294967296
       = ⟨"m", "u", "dd", .mDouble⟩) := by
  constructor
  · exact ⟨by decide, (getDescriptor_total ⟨[⟨"m", "u", "dd", .mDouble⟩], []⟩ 7).1 (by decide)⟩
  · refine ⟨by decide, by decide, ?_⟩
    have h := (getDescriptor_total ⟨[⟨"m", "u", "dd", .mDouble⟩], []⟩ 4294967296).2.2.2.2.2
      (by decide) (by decide)
    simpa using h

/-- C10: `Add` touches only its own row — every row under a different key is
unchanged, and `start_time`, aggregation, aggregation window, and the
storage type are unchanged. -/
theorem add_frame (d : ViewDataImpl) (value : Rat) (k : TagKey) (now : Int)
    (k2 : TagKey) (hne : k2 ≠ k) :
    (d.add value k now).start_time = d.start_time ∧
    (d.add value k now).aggregation = d.aggregation ∧
    (d.add value k now).aggregation_window = d.aggregation_window ∧
    (d.add value k now).vtype = d.vtype ∧
    (d.add value k now).lookupRow k2 = d.lookupRow k2 := by
  refine ⟨add_start_time d value k now, add_aggregation d value k now,
    add_aggregation_window d value k now, add_vtype d value k now, ?_⟩
  rcases d with ⟨agg, win, st, et, data⟩
  cases data <;>
    simp [ViewDataImpl.add, ViewDataImpl.lookupRow, lookup_upsert_ne _ _ _ _ hne]

/-- Witness for C10: adding under `["a"]` leaves the `["b"]` row and the
other fields of a concrete view unchanged. -/
theorem add_frame_witness :
    (["b"] : TagKey) ≠ (["a"] : TagKey) ∧
    ((((mkViewData 0 ⟨Aggregation.sum, AggregationWindow.cumulative⟩).add 3 ["b"] 1).add 5 ["a"] 2).start_time
       = ((mkViewData 0 ⟨Aggregation.sum, AggregationWindow.cumulative⟩).add 3 ["b"] 1).start_time ∧
     (((mkViewData 0 ⟨Aggregation.sum, AggregationWindow.cumulative⟩).add 3 ["b"] 1).add 5 ["a"] 2).aggregation
       = ((mkViewData 0 ⟨Aggregation.sum, AggregationWindow.cumulative⟩).add 3 ["b"] 1).aggregation ∧
     (((mkViewData 0 ⟨Aggregation.sum, AggregationWindow.cumulative⟩).add 3 ["b"] 1).add 5 ["a"] 2).aggregation_window
       = ((mkViewData 0 ⟨Aggregation.sum, AggregationWindow.cumulative⟩).add 3 ["b"] 1).aggregation_window ∧
     (((mkViewData 0 ⟨Aggregation.sum, AggregationWindow.cumulative⟩).add 3 ["b"] 1).add 5 ["a"] 2).vtype
       = ((mkViewData 0 ⟨Aggregation.sum, AggregationWindow.cumulative⟩).add 3 ["b"] 1).vtype ∧
     (((mkViewData 0 ⟨Aggregation.sum, AggregationWindow.cumulative⟩).add 3 ["b"] 1).add 5 ["a"] 2).lookupRow ["b"]
       = ((mkViewData 0 ⟨Aggregation.sum, AggregationWindow.cumulative⟩).add 3 ["b"] 1).lookupRow ["b"]) := by
  refine ⟨by decide, ?_⟩
  exact add_frame ((mkViewData 0 ⟨Aggregation.sum, AggregationWindow.cumulative⟩).add 3 ["b"] 1)
    5 ["a"] 2 ["b"] (by decide)

end OCStats
